import Mathlib

/-!
Shallow embedding of the cx-redux-utils library (`src/index.js`, the newest
generation in the repository) over an inductive model of JavaScript values.

The library is written against ramda 0.21.0 (the version pinned by the doc
links in `src/index.js`).  Facts about that ramda version that the embedding
relies on:

* `R.or(a, b)` and `R.and(a, b)` are plain value operators (`a || b`,
  `a && b`); they do not lift functions.  Hence
  `isNilOrEmpty = or(isNil, isEmpty)` evaluates to the (truthy) function
  `isNil`, `exists = and(notEmpty, notNil)` evaluates to `notNil`, and
  `statusWithinRange(low, high) = and(statusCodeGTE(low), statusCodeLT(high))`
  evaluates to `statusCodeLT(high)`, i.e. the predicate `status < high`.
* `R.path` (and therefore `view` over `lensPath`) is nil-guarded: it returns
  `undefined` when the target or an intermediate value is `null`/`undefined`,
  and never throws.  `R.prop` is not guarded, but the newest generation of
  `getLens` routes single keys through `lensPath` (`compose(lensPath, of)`),
  so all selectors built by `createSelector` are total.
* `R.propOr(d, p, obj)` returns `obj[p]` when `obj` is non-nil and has `p` as
  an own property, else `d`; `R.propEq(name, val, obj)` is
  `equals(val, obj[name])`; `R.cond` returns `undefined` when no predicate
  matches; `R.merge(a, b)` is `Object.assign({}, a, b)`.

Modelling choices:

* JS numbers are modelled as integers (`Int`); every number appearing in the
  library and its claims is an integer.  Floating point (and `NaN`) is out of
  scope of the model.
* The `headers` capability object of a response (consumed only through
  `headers.get('location')`) is modelled by the constructor `vHdrs` carrying
  the lookup table of the capability; calling `get` is a table lookup.
* Exceptions (JS `TypeError`, JSON `SyntaxError`) are modelled with
  `Except String`.
-/

set_option maxHeartbeats 1000000

namespace CxReduxUtils

/-- Model of a JavaScript value as consumed and produced by the library. -/
inductive JValue : Type where
  | vUndefined : JValue
  | vNull : JValue
  | vBool : Bool → JValue
  | vNum : Int → JValue
  | vStr : String → JValue
  | vArr : List JValue → JValue
  | vObj : List (String × JValue) → JValue
  | vHdrs : List (String × JValue) → JValue

open JValue

mutual

/-- Model of `R.equals` (deep structural equality).  On the values the library
ever passes to `equals` — numbers, strings, booleans, nil (via
`propEq('status', code)` and `isEmpty`) — this agrees exactly with ramda;
for objects ramda is key-order-insensitive, which never matters in the
library because `equals` is only ever applied with a primitive argument or an
empty collection. -/
def jsEquals : JValue → JValue → Bool
  | vUndefined, vUndefined => true
  | vNull, vNull => true
  | vBool a, vBool b => a == b
  | vNum a, vNum b => a == b
  | vStr a, vStr b => a == b
  | vArr xs, vArr ys => jsEqualsArr xs ys
  | vObj fs, vObj gs => jsEqualsFields fs gs
  | vHdrs fs, vHdrs gs => jsEqualsFields fs gs
  | _, _ => false

/-- Elementwise equality of array models. -/
def jsEqualsArr : List JValue → List JValue → Bool
  | [], [] => true
  | x :: xs, y :: ys => jsEquals x y && jsEqualsArr xs ys
  | _, _ => false

/-- Pairwise equality of object field lists. -/
def jsEqualsFields : List (String × JValue) → List (String × JValue) → Bool
  | [], [] => true
  | p :: ps, q :: qs => p.1 == q.1 && jsEquals p.2 q.2 && jsEqualsFields ps qs
  | _, _ => false

end

/-- First-occurrence lookup in an association list (JS objects have unique
keys, so first = only). -/
def lookupField : List (String × α) → String → Option α
  | [], _ => none
  | p :: ps, k => if p.1 = k then some p.2 else lookupField ps k

/-- Whether an association list carries the given key. -/
def hasKey (fs : List (String × α)) (k : String) : Bool :=
  (lookupField fs k).isSome

/-- JS property write `obj[k] = v` on an object represented as an association
list: an existing key keeps its position and gets the new value, a new key is
appended (JS insertion-order semantics). -/
def upsert : List (String × α) → String × α → List (String × α)
  | [], kv => [kv]
  | p :: ps, kv => if p.1 = kv.1 then (kv.1, kv.2) :: ps else p :: upsert ps kv

/-- Copy all pairs of `ps` onto `base` in order, as `Object.assign(base, src)`
does with the own enumerable pairs `ps` of `src`. -/
def assignPairs (base ps : List (String × α)) : List (String × α) :=
  ps.foldl upsert base

/-- A JS object has pairwise distinct keys. -/
def uniqueKeysB : List (String × α) → Bool
  | [] => true
  | p :: ps => !hasKey ps p.1 && uniqueKeysB ps

/-- Model of `R.type` (`Object.prototype.toString` based, with the nil
specializations).  The headers capability is a plain JS object at runtime. -/
def jsType : JValue → String
  | vUndefined => "Undefined"
  | vNull => "Null"
  | vBool _ => "Boolean"
  | vNum _ => "Number"
  | vStr _ => "String"
  | vArr _ => "Array"
  | vObj _ => "Object"
  | vHdrs _ => "Object"

/-- Model of `R.isNil` (`x == null`). -/
def isNil : JValue → Bool
  | vUndefined => true
  | vNull => true
  | _ => false

mutual

/-- JS `ToString` coercion.  Matches JavaScript on every value the library can
feed to it: strings, numbers (integers in this model), booleans, nil, arrays
(`Array.prototype.join(',')` with nil elements turned into empty strings) and
plain objects (`"[object Object]"`). -/
def jsToStr : JValue → String
  | vUndefined => "undefined"
  | vNull => "null"
  | vBool b => if b then "true" else "false"
  | vNum n => toString n
  | vStr s => s
  | vArr xs => jsArrToStr xs
  | vObj _ => "[object Object]"
  | vHdrs _ => "[object Object]"

/-- `Array.prototype.toString`: comma-joined element strings, nil elements
contributing the empty string. -/
def jsArrToStr : List JValue → String
  | [] => ""
  | [x] =>
    match x with
    | vUndefined => ""
    | vNull => ""
    | v => jsToStr v
  | x :: xs =>
    (match x with
     | vUndefined => ""
     | vNull => ""
     | v => jsToStr v) ++ "," ++ jsArrToStr xs

end

/-- Digit-string to number, requiring at least one digit and all digits. -/
def charsToNat? (cs : List Char) : Option Nat :=
  if cs.isEmpty ∨ ¬ cs.all Char.isDigit then none
  else some (cs.foldl (fun a c => a * 10 + (c.toNat - '0'.toNat)) 0)

/-- A canonical JS array-index string: digits with no superfluous leading
zero. -/
def strToIdx? (s : String) : Option Nat :=
  match s.data with
  | [] => none
  | c :: cs =>
    if c = '0' ∧ ¬ cs.isEmpty then none
    else charsToNat? (c :: cs)

/-- Own enumerable string-keyed properties of a value, in insertion order, as
enumerated by `Object.assign` / `for..in` (own part): objects contribute their
fields, arrays and strings contribute their element indices, primitives and
nil contribute nothing.  The headers capability contributes nothing the
library ever reads through this path. -/
def ownPairs : JValue → List (String × JValue)
  | vObj fs => fs
  | vArr xs => (xs.enum.map fun p => (toString p.1, p.2))
  | vStr s => (s.data.enum.map fun p => (toString p.1, vStr (String.singleton p.2)))
  | _ => []

/-- JS property read `o[k]` for non-nil `o` (never throws): own fields of
objects, indices and `length` of arrays and strings, `undefined` elsewhere.
Prototype-chain properties are not modelled (the library never reads any).
The headers capability is only ever consumed through its `get` method, which
the embedding reaches via `getHeadersGetE` below. -/
def getPropD : JValue → String → JValue
  | vObj fs, k => (lookupField fs k).getD vUndefined
  | vArr xs, k =>
    if k = "length" then vNum xs.length
    else match strToIdx? k with
      | some i => (xs.get? i).getD vUndefined
      | none => vUndefined
  | vStr s, k =>
    if k = "length" then vNum s.data.length
    else match strToIdx? k with
      | some i => ((s.data.get? i).map fun c => vStr (String.singleton c)).getD vUndefined
      | none => vUndefined
  | _, _ => vUndefined

/-- JS property read `o[k]` with the JS exception behaviour: a `TypeError`
on `null`/`undefined`, total otherwise. -/
def getPropE : JValue → String → Except String JValue
  | vUndefined, k => .error ("TypeError: cannot read property " ++ k ++ " of undefined")
  | vNull, k => .error ("TypeError: cannot read property " ++ k ++ " of null")
  | o, k => .ok (getPropD o k)

/-- `Object.prototype.hasOwnProperty.call(o, k)` for the values the library
passes to `R.has` / `R.propOr`: own fields of objects, indices and `length`
of (boxed) arrays and strings, the `get` method of the headers capability. -/
def hasOwn : JValue → String → Bool
  | vObj fs, k => hasKey fs k
  | vArr xs, k =>
    k = "length" || (match strToIdx? k with
      | some i => i < xs.length
      | none => false)
  | vStr s, k =>
    k = "length" || (match strToIdx? k with
      | some i => i < s.data.length
      | none => false)
  | vHdrs _, k => k = "get"
  | _, _ => false

/-- Model of `R.propOr(d, k, o)` at ramda 0.21.0:
`obj != null && has(k, obj) ? obj[k] : d`.  Note the headers capability's
only own property is its `get` method, which this model cannot surface as a
value; the library never reads it through `propOr`. -/
def propOrJ (d : JValue) (k : String) (o : JValue) : JValue :=
  if isNil o then d
  else if hasOwn o k then getPropD o k else d

/-- JS `ToNumber` of a string: whitespace-trimmed, the empty string is `0`,
integer literals (with an optional sign) parse, everything else is `NaN`
(`none`). -/
def strToNumOpt (s : String) : Option Int :=
  let t := (s.data.dropWhile Char.isWhitespace).reverse.dropWhile Char.isWhitespace |>.reverse
  match t with
  | [] => some 0
  | '-' :: cs => (charsToNat? cs).map fun n => -(Int.ofNat n)
  | '+' :: cs => (charsToNat? cs).map Int.ofNat
  | cs => (charsToNat? cs).map Int.ofNat

/-- JS `ToNumber` (after `ToPrimitive`), restricted to the integer number
line of this model; `none` plays the role of `NaN`.  Matches JavaScript on
nil, booleans, numbers, integer-literal strings (including the empty string)
and via the string coercion on arrays and objects. -/
def toNumOpt : JValue → Option Int
  | vNum n => some n
  | vBool b => some (if b then 1 else 0)
  | vNull => some 0
  | vUndefined => none
  | vStr s => strToNumOpt s
  | vArr xs => strToNumOpt (jsArrToStr xs)
  | vObj _ => none
  | vHdrs _ => none

/-- JS `a < b`: lexicographic when both operands are strings, numeric
otherwise with `NaN` (here `none`) making the comparison false. -/
def jsLt : JValue → JValue → Bool
  | vStr a, vStr b => a < b
  | a, b =>
    match toNumOpt a, toNumOpt b with
    | some m, some n => m < n
    | _, _ => false

/-- Model of `R.isEmpty` at ramda 0.21.0
(`x != null && equals(x, empty(x))`): true exactly on the empty string, the
empty array and the empty object.  The headers capability has its `get`
property and is never empty; values without an empty analogue compare
unequal to `undefined`. -/
def isEmptyB : JValue → Bool
  | vStr s => s = ""
  | vArr xs => xs.isEmpty
  | vObj fs => fs.isEmpty
  | _ => false

/-- Model of `R.path(ps, obj)` at ramda 0.21.0: walk the keys left to right,
returning `undefined` as soon as the current value is nil; never throws. -/
def pathGet : List String → JValue → JValue
  | [], v => v
  | k :: ks, v => if isNil v then vUndefined else pathGet ks (getPropD v k)

/-- Model of `R.merge(a, b)` = `Object.assign({}, a, b)`: copy the own
enumerable pairs of `a`, then those of `b` (later keys overwrite in place,
new keys append). -/
def rMerge (a b : JValue) : JValue :=
  vObj (assignPairs (assignPairs [] (ownPairs a)) (ownPairs b))

/-- `src/index.js` `applyHandlerByType = cond([[typeIs('Object'), merge],
[T, secondArgument]])`: merge state with the handler result when the state is
object-typed, otherwise return the handler result unchanged. -/
def applyHandlerByType (state handlerResult : JValue) : JValue :=
  if jsType state = "Object" then rMerge state handlerResult else handlerResult

/-- An action handler: a JS function of `(state, action)`. -/
def Handler : Type := JValue → JValue → JValue

/-- An action map: a JS object whose values are handler functions. -/
def AMap : Type := List (String × Handler)

/-- `src/index.js` `emptyObject = always({})`, used by
`getPropOrEmptyObjectFunction` as the fallback handler when the action type
has no entry in the merged action map. -/
def emptyObjectHandler : Handler := fun _ _ => vObj []

/-- Model of `R.mergeAll(actionMaps)` (`reduce(merge, {}, list)`) on action
maps: later maps overwrite earlier ones on key collision. -/
def mergeAllMaps (maps : List AMap) : AMap :=
  maps.foldl (fun acc m => assignPairs acc m) []

/-- `src/index.js` `getPropOrEmptyString('type', action)`: the action's own
`type` property, or the empty string when the action is nil or lacks one. -/
def actionTypeOf (action : JValue) : JValue :=
  propOrJ (vStr "") "type" action

/-- `src/index.js` `getPropOrEmptyObjectFunction(actionType, actionMap)`:
look the (string-coerced) action type up in the merged action map, falling
back to `always({})`. -/
def invokedHandler (actionMap : AMap) (action : JValue) : Handler :=
  match lookupField actionMap (jsToStr (actionTypeOf action)) with
  | some h => h
  | none => emptyObjectHandler

/-- `src/index.js` `createReducer(defaultState, ...actionMaps)`: merge the
action maps, and return the reducer `(state = defaultState, action) =>
applyHandlerByType(state, handler(state, action))`.  The JS default
parameter fires exactly on `undefined`. -/
def createReducer (defaultState : JValue) (actionMaps : List AMap) :
    JValue → JValue → JValue :=
  fun state action =>
    let st := match state with
      | vUndefined => defaultState
      | s => s
    let actionMap := mergeAllMaps actionMaps
    applyHandlerByType st (invokedHandler actionMap action st action)

/-- `src/index.js` `reduceReducers(...reducers)`: thread the same action
through the reducers left to right, starting from the given state. -/
def reduceReducers (reducers : List (JValue → JValue → JValue)) :
    JValue → JValue → JValue :=
  fun previous current =>
    reducers.foldl (fun p r => r p current) previous

/-- `src/index.js` `orEmptyObject = defaultTo({})`: nil becomes `{}`, any
other value passes through.  (ramda's `defaultTo` also replaces `NaN`, which
does not exist on the integer number line of this model.) -/
def orEmptyObject (v : JValue) : JValue :=
  if isNil v then vObj [] else v

/-- `src/index.js` `returnActionResult(actionType, payload = {}, meta = {})`:
the standard action object.  The JS parameter defaults (fired by
`undefined`) are composed with `orEmptyObject` (fired by nil). -/
def returnActionResult (actionType : String) (payload meta : JValue) : JValue :=
  let p := match payload with
    | vUndefined => vObj []
    | v => v
  let m := match meta with
    | vUndefined => vObj []
    | v => v
  vObj [("type", vStr actionType),
        ("payload", orEmptyObject p),
        ("meta", orEmptyObject m)]

/-- `src/index.js` `createAction(type)`: the action creator
`(payload, meta) => returnActionResult(type, payload, meta)`.  A JS call
with missing arguments passes `undefined`. -/
def createAction (actionType : String) : JValue → JValue → JValue :=
  fun payload meta => returnActionResult actionType payload meta

/-- A ramda lens collapsed to its getter/setter pair (the functor encoding
of `R.lens` is observationally exactly this pair under `view`/`set`). -/
structure RLens where
  get : JValue → JValue
  set : JValue → JValue → JValue

/-- `R.assoc(k, v, o)` at ramda 0.21.0: copy the own enumerable pairs of `o`
into a fresh object and write `k`; an existing key keeps its position.
Never throws (`for..in` over nil iterates zero times). -/
def jsAssoc (k : String) (v : JValue) (o : JValue) : JValue :=
  vObj (upsert (ownPairs o) (k, v))

/-- `R.assocPath(ps, v, o)`: write along the path, shallow-copying each level.
Only the empty and single-key cases are exercised by the library's claims;
the deep case reads `o[head]` with the total read of this model. -/
def assocPathJ : List String → JValue → JValue → JValue
  | [], v, _ => v
  | [k], v, o => jsAssoc k v o
  | k :: ks, v, o => jsAssoc k (assocPathJ ks v (getPropD o k)) o

/-- The key list denoted by a `getLens` argument: an array is mapped over
the JS string coercion of its elements, any other value `k` becomes the
one-element path `[k]` (`compose(lensPath, of)`). -/
def toPathKeys : JValue → List String
  | vArr ps => ps.map jsToStr
  | k => [jsToStr k]

/-- `src/index.js` `getLens = ifElse(isArrayLike, lensPath,
compose(lensPath, of))`: both shapes of argument produce a `lensPath` lens
(ramda 0.21.0 `isArrayLike` is true for arrays and false for strings and
plain objects). -/
def getLens (p : JValue) : RLens :=
  { get := pathGet (toPathKeys p), set := assocPathJ (toPathKeys p) }

/-- `R.view(lens, x)`: run the lens getter. -/
def view (l : RLens) : JValue → JValue := l.get

/-- `R.set(lens, v, x)`: run the lens setter. -/
def rSet (l : RLens) : JValue → JValue → JValue := l.set

/-- `src/index.js` `createSelector = compose(view, getLens)`. -/
def createSelector (p : JValue) : JValue → JValue :=
  view (getLens p)

/-- `src/index.js` `createSetter = compose(set, getLens)`. -/
def createSetter (p : JValue) : JValue → JValue → JValue :=
  rSet (getLens p)

/-- JSON whitespace skipping. -/
def jsonSkipWs : List Char → List Char
  | c :: cs =>
    if c = ' ' ∨ c = '\t' ∨ c = '\n' ∨ c = '\r' then jsonSkipWs cs else c :: cs
  | [] => []

/-- Decode the body of a JSON string literal (opening quote already
consumed), returning the decoded string and the rest of the input.
`\uXXXX` escapes are not modelled (no claim exercises them). -/
def parseJStrBody : List Char → Except String (String × List Char)
  | [] => .error "SyntaxError: unterminated string"
  | c :: cs =>
    if c = '"' then .ok ("", cs)
    else if c = '\\' then
      match cs with
      | [] => .error "SyntaxError: unterminated escape"
      | e :: cs2 =>
        let dec : Except String Char :=
          if e = '"' then .ok '"'
          else if e = '\\' then .ok '\\'
          else if e = '/' then .ok '/'
          else if e = 'n' then .ok '\n'
          else if e = 't' then .ok '\t'
          else if e = 'r' then .ok '\r'
          else .error "SyntaxError: unsupported escape"
        match dec with
        | .error msg => .error msg
        | .ok ec =>
          match parseJStrBody cs2 with
          | .error msg => .error msg
          | .ok (s, r) => .ok (String.singleton ec ++ s, r)
    else
      match parseJStrBody cs with
      | .error msg => .error msg
      | .ok (s, r) => .ok (String.singleton c ++ s, r)

/-- Decode a JSON integer literal starting at the given characters.
Fractions and exponents are outside the integer number line of this model
(no claim exercises them). -/
def parseJNum (cs : List Char) : Except String (JValue × List Char) :=
  let (neg, cs1) := match cs with
    | '-' :: rest => (true, rest)
    | _ => (false, cs)
  let digits := cs1.takeWhile Char.isDigit
  let rest := cs1.dropWhile Char.isDigit
  if digits.isEmpty then .error "SyntaxError: bad number"
  else
    match rest with
    | '.' :: _ => .error "SyntaxError: non-integer number (out of model)"
    | 'e' :: _ => .error "SyntaxError: non-integer number (out of model)"
    | 'E' :: _ => .error "SyntaxError: non-integer number (out of model)"
    | _ =>
      let n : Int := digits.foldl (fun a c => a * 10 + (Int.ofNat (c.toNat - '0'.toNat))) 0
      .ok (vNum (if neg then -n else n), rest)

/-- Expect a literal keyword continuation (for `null`, `true`, `false`). -/
def expectChars : List Char → List Char → Except String (List Char)
  | [], cs => .ok cs
  | l :: ls, c :: cs =>
    if c = l then expectChars ls cs else .error "SyntaxError: bad literal"
  | _ :: _, [] => .error "SyntaxError: bad literal"

mutual

/-- Decode one JSON value; fuel bounds the nesting recursion. -/
def parseJVal : Nat → List Char → Except String (JValue × List Char)
  | 0, _ => .error "SyntaxError: fuel exhausted"
  | Nat.succ f, cs =>
    match jsonSkipWs cs with
    | [] => .error "SyntaxError: unexpected end"
    | c :: rest =>
      if c = 'n' then
        match expectChars ['u', 'l', 'l'] rest with
        | .error msg => .error msg
        | .ok r => .ok (vNull, r)
      else if c = 't' then
        match expectChars ['r', 'u', 'e'] rest with
        | .error msg => .error msg
        | .ok r => .ok (vBool true, r)
      else if c = 'f' then
        match expectChars ['a', 'l', 's', 'e'] rest with
        | .error msg => .error msg
        | .ok r => .ok (vBool false, r)
      else if c = '"' then
        match parseJStrBody rest with
        | .error msg => .error msg
        | .ok (s, r) => .ok (vStr s, r)
      else if c = '{' then
        match jsonSkipWs rest with
        | '}' :: r => .ok (vObj [], r)
        | cs2 => parseJObjItems f cs2 []
      else if c = '[' then
        match jsonSkipWs rest with
        | ']' :: r => .ok (vArr [], r)
        | cs2 => parseJArrItems f cs2 []
      else if c = '-' ∨ c.isDigit then parseJNum (c :: rest)
      else .error "SyntaxError: unexpected token"

/-- Decode the members of a JSON object after `{` (first key expected). -/
def parseJObjItems : Nat → List Char → List (String × JValue) →
    Except String (JValue × List Char)
  | 0, _, _ => .error "SyntaxError: fuel exhausted"
  | Nat.succ f, cs, acc =>
    match jsonSkipWs cs with
    | '"' :: rest =>
      match parseJStrBody rest with
      | .error msg => .error msg
      | .ok (k, r1) =>
        match jsonSkipWs r1 with
        | ':' :: r2 =>
          match parseJVal f r2 with
          | .error msg => .error msg
          | .ok (v, r3) =>
            match jsonSkipWs r3 with
            | ',' :: r4 => parseJObjItems f r4 (acc ++ [(k, v)])
            | '}' :: r4 => .ok (vObj (acc ++ [(k, v)]), r4)
            | _ => .error "SyntaxError: expected comma or closing brace"
        | _ => .error "SyntaxError: expected colon"
    | _ => .error "SyntaxError: expected string key"

/-- Decode the elements of a JSON array after `[` (first element expected). -/
def parseJArrItems : Nat → List Char → List JValue →
    Except String (JValue × List Char)
  | 0, _, _ => .error "SyntaxError: fuel exhausted"
  | Nat.succ f, cs, acc =>
    match parseJVal f cs with
    | .error msg => .error msg
    | .ok (v, r1) =>
      match jsonSkipWs r1 with
      | ',' :: r2 => parseJArrItems f r2 (acc ++ [v])
      | ']' :: r2 => .ok (vArr (acc ++ [v]), r2)
      | _ => .error "SyntaxError: expected comma or closing bracket"

end

/-- Model of `JSON.parse` on the JSON fragment the library can produce and
consume: objects, arrays, strings, integers, booleans, null. -/
def jsonParseE (s : String) : Except String JValue :=
  match parseJVal (s.length + 16) s.data with
  | .error msg => .error msg
  | .ok (v, rest) =>
    match jsonSkipWs rest with
    | [] => .ok v
    | _ => .error "SyntaxError: trailing characters"

/-- `src/index.js` `parse = x => JSON.parse(isEmpty(x) ? '{}' : x)`
(`JSON.parse` string-coerces its argument). -/
def parse (x : JValue) : Except String JValue :=
  jsonParseE (if isEmptyB x then "{}" else jsToStr x)

/-- `src/index.js` `parseIfString = ifElse(typeIs('String'), parse,
identity)`. -/
def parseIfString (x : JValue) : Except String JValue :=
  if jsType x = "String" then parse x else .ok x

/-- `src/index.js` `encodeResponse = compose(parseIfString, prop('value'))`;
`prop` reads `value` with the JS exception behaviour on nil. -/
def encodeResponseE (r : JValue) : Except String JValue :=
  match getPropE r "value" with
  | .error msg => .error msg
  | .ok v => parseIfString v

/-- The headers capability's `get` operation, modelled as the lookup table
carried by `vHdrs`; a missing name yields `null` (as `Headers.get` does). -/
def hGet (hs : List (String × JValue)) (name : String) : JValue :=
  (lookupField hs name).getD vNull

/-- `src/index.js` `getHeaders = data => data.headers.get('location')`:
reads `headers` (TypeError on nil data) and calls its `get` capability
(TypeError when `headers` is not such a capability). -/
def getHeadersE (r : JValue) : Except String JValue :=
  match getPropE r "headers" with
  | .error msg => .error msg
  | .ok (vHdrs hs) => .ok (hGet hs "location")
  | .ok _ => .error "TypeError: data.headers.get is not a function"

/-- `src/index.js` `getRedirect = compose(objOf('redirect_to'),
getHeaders)`. -/
def getRedirectE (r : JValue) : Except String JValue :=
  match getHeadersE r with
  | .error msg => .error msg
  | .ok v => .ok (vObj [("redirect_to", v)])

/-- `R.propEq(k, v, o)` = `equals(v, o[k])`, with the JS read exception on
nil. -/
def propEqE (k : String) (v : JValue) (o : JValue) : Except String Bool :=
  match getPropE o k with
  | .error msg => .error msg
  | .ok x => .ok (jsEquals v x)

/-- `src/index.js` `statusCodeLT(bound)` =
`compose(flip(lt)(bound), prop('status'))`: the JS comparison
`o.status < bound`. -/
def statusCodeLtE (bound : Int) (o : JValue) : Except String Bool :=
  match getPropE o "status" with
  | .error msg => .error msg
  | .ok s => .ok (jsLt s (vNum bound))

/-- `src/index.js` `statusWithinRange(low, high) =
and(statusCodeGTE(low), statusCodeLT(high))`.  ramda 0.21.0 `and` is the
plain value operator `a && b`; applied to two (truthy) functions it returns
the second one, so the built predicate is `status < high` and the lower
bound is inert. -/
def statusWithinRangeE (_low high : Int) : JValue → Except String Bool :=
  fun o => statusCodeLtE high o

/-- `src/index.js` `statusFilter = cond([[isNilOrEmpty, emptyObject],
[statusIs(401), getRedirect], [statusWithinRange(200, 300),
encodeResponse]])`.  At ramda 0.21.0, `isNilOrEmpty = or(isNil, isEmpty)`
evaluates to the first (truthy) function `isNil`, so the guard tests nil
only; `cond` with no matching pair returns `undefined`. -/
def statusFilterE (r : JValue) : Except String JValue :=
  if isNil r then .ok (vObj [])
  else
    match propEqE "status" (vNum 401) r with
    | .error msg => .error msg
    | .ok true => getRedirectE r
    | .ok false =>
      match statusWithinRangeE 200 300 r with
      | .error msg => .error msg
      | .ok true => encodeResponseE r
      | .ok false => .ok vUndefined

/-- `src/index.js` `isResponseObj = allPass([typeIs('Object'),
has('data')])` (`allPass` short-circuits, so `has` only runs on objects). -/
def isResponseObj (v : JValue) : Bool :=
  jsType v = "Object" && hasOwn v "data"

/-- `src/index.js` `safeData = ifElse(isResponseObj, path(['data']),
identity)`. -/
def safeData (v : JValue) : JValue :=
  if isResponseObj v then pathGet ["data"] v else v

/-- `src/index.js` `safeMeta = propOr({}, 'meta')`. -/
def safeMeta (v : JValue) : JValue :=
  propOrJ (vObj []) "meta" v

/-- `src/index.js` `fetchCallback(func)` for a function callback:
`compose(converge(actionCreatorOrNew(func), [safeData, safeMeta]),
statusFilter)`; `actionCreatorOrNew` is the identity on functions, so the
composite feeds `(safeData(x), safeMeta(x))` of the filtered response into
`func`. -/
def fetchCallbackFn (func : JValue → JValue → JValue) (r : JValue) :
    Except String JValue :=
  match statusFilterE r with
  | .error msg => .error msg
  | .ok v => .ok (func (safeData v) (safeMeta v))

/-- `src/index.js` `standardFetch(url, params)`: the redux-effects-fetch
action shape. -/
def standardFetch (url : String) (params : JValue) : JValue :=
  vObj [("type", vStr "EFFECT_FETCH"),
        ("payload", vObj [("url", vStr url), ("params", params)])]

/-- `src/index.js` `headersWithNamedAccept(apiName)`.  `APP_NAME` and
`APP_VERSION` are ambient globals of the embedding application, passed here
as explicit parameters. -/
def headersWithNamedAccept (appName appVersion apiName : String) : JValue :=
  vObj [("headers", vObj [
    ("Accept", vStr ("application/x." ++ apiName ++ "-api.1+json")),
    ("Content-Type", vStr "application/json"),
    ("cx-app", vStr appName),
    ("cx-app-version", vStr appVersion)])]

/-- `src/index.js` `hasMethod = pathSatisfies(exists, ['method'])`.  At
ramda 0.21.0, `exists = and(notEmpty, notNil)` evaluates to the second
(truthy-first) function `notNil`, so the predicate tests that `o.method` is
not nil. -/
def hasMethodB (o : JValue) : Bool :=
  !isNil (pathGet ["method"] o)

/-- `src/index.js` `setMethod = createSetter(['method'])` applied to a
value. -/
def setMethod (v : JValue) (o : JValue) : JValue :=
  createSetter (vArr [vStr "method"]) v o

/-- `src/index.js` `defaultMethodToGet = ifElse(hasMethod, identity,
setMethod('GET'))`. -/
def defaultMethodToGet (o : JValue) : JValue :=
  if hasMethodB o then o else setMethod (vStr "GET") o

/-- `src/index.js` `processParams = compose(defaultMethodToGet, merge)`. -/
def processParams (params headers : JValue) : JValue :=
  defaultMethodToGet (rMerge params headers)

/-- `src/index.js` `namedApiFetchWrapper(apiName, suffix)(url, params)`,
with the ambient `APP_NAME`/`APP_VERSION` globals as parameters; the JS
default `params = {}` fires on `undefined`. -/
def namedApiFetchWrapper (appName appVersion apiName suffix : String)
    (url : String) (params : JValue) : JValue :=
  let ps := match params with
    | vUndefined => vObj []
    | p => p
  let finalUrl := "/api/" ++ apiName ++ suffix ++ url
  let headers := headersWithNamedAccept appName appVersion apiName
  let finalParams := processParams ps headers
  standardFetch finalUrl finalParams

/-- `namedApiFetchWrapper` with the default suffix `'-api'` (the JS default
parameter of the source). -/
def namedApiFetchWrapperDefault (appName appVersion apiName : String) :
    String → JValue → JValue :=
  namedApiFetchWrapper appName appVersion apiName "-api"

theorem lookupField_none_of_hasKey_false {α : Type} (fs : List (String × α))
    (k : String) (h : hasKey fs k = false) : lookupField fs k = none := by
  unfold hasKey at h
  cases hl : lookupField fs k with
  | none => rfl
  | some v => rw [hl] at h; simp at h

theorem hasKey_false_forall {α : Type} (fs : List (String × α)) (k : String)
    (h : hasKey fs k = false) : ∀ q ∈ fs, q.1 ≠ k := by
  induction fs with
  | nil => intro q hq; cases hq
  | cons p ps ih =>
    intro q hq
    by_cases hp : p.1 = k
    · exfalso
      simp [hasKey, lookupField, hp] at h
    · rw [List.mem_cons] at hq
      rcases hq with hq | hq
      · rw [hq]; exact hp
      · exact ih (by simpa [hasKey, lookupField, hp] using h) q hq

theorem uniqueKeysB_cons {α : Type} (p : String × α) (ps : List (String × α)) :
    uniqueKeysB (p :: ps) = true ↔ hasKey ps p.1 = false ∧ uniqueKeysB ps = true := by
  simp [uniqueKeysB, Bool.and_eq_true, Bool.not_eq_true']

theorem lookup_upsert {α : Type} (fs : List (String × α)) (k : String) (v : α)
    (k2 : String) :
    lookupField (upsert fs (k, v)) k2 = if k2 = k then some v else lookupField fs k2 := by
  induction fs with
  | nil =>
    by_cases h : k2 = k
    · simp [upsert, lookupField, h]
    · simp [upsert, lookupField, h, Ne.symm h]
  | cons p ps ih =>
    obtain ⟨a, b⟩ := p
    by_cases hp : a = k
    · subst hp
      by_cases h : k2 = a
      · subst h; simp [upsert, lookupField]
      · simp [upsert, lookupField, h, Ne.symm h]
    · by_cases h : k2 = a
      · subst h
        simp [upsert, lookupField, hp, Ne.symm hp, ih]
      · simp [upsert, lookupField, hp, h, Ne.symm h, ih]

theorem lookup_assign {α : Type} (ps : List (String × α)) :
    ∀ (base : List (String × α)) (k : String), uniqueKeysB ps = true →
    lookupField (assignPairs base ps) k =
      match lookupField ps k with
      | some v => some v
      | none => lookupField base k := by
  induction ps with
  | nil =>
    intro base k _
    simp [assignPairs, lookupField]
  | cons p ps ih =>
    intro base k hu
    obtain ⟨a, v⟩ := p
    rcases (uniqueKeysB_cons (a, v) ps).mp hu with ⟨hk, hups⟩
    have hstep : assignPairs base ((a, v) :: ps) = assignPairs (upsert base (a, v)) ps := rfl
    rw [hstep, ih _ k hups]
    by_cases h : k = a
    · subst h
      rw [lookupField_none_of_hasKey_false ps k hk]
      simp [lookupField, lookup_upsert]
    · cases hpk : lookupField ps k with
      | some w => simp [lookupField, h, Ne.symm h, hpk]
      | none => simp [lookupField, h, Ne.symm h, hpk, lookup_upsert]

theorem hasKey_append {α : Type} (xs ys : List (String × α)) (k : String) :
    hasKey (xs ++ ys) k = (hasKey xs k || hasKey ys k) := by
  induction xs with
  | nil => simp [hasKey, lookupField]
  | cons p ps ih =>
    by_cases hp : p.1 = k
    · simp [hasKey, lookupField, hp]
    · simpa [hasKey, lookupField, hp] using ih

theorem upsert_not_has {α : Type} (base : List (String × α)) (kv : String × α)
    (h : hasKey base kv.1 = false) : upsert base kv = base ++ [kv] := by
  induction base with
  | nil => rfl
  | cons p ps ih =>
    obtain ⟨a, b⟩ := p
    by_cases hp : a = kv.1
    · exfalso; simp [hasKey, lookupField, hp] at h
    · have hps : hasKey ps kv.1 = false := by
        simpa [hasKey, lookupField, hp] using h
      simp [upsert, hp, ih hps]

theorem assign_disjoint {α : Type} (ps : List (String × α)) :
    ∀ (base : List (String × α)), uniqueKeysB ps = true →
    (∀ q ∈ ps, hasKey base q.1 = false) → assignPairs base ps = base ++ ps := by
  induction ps with
  | nil => intro base _ _; simp [assignPairs]
  | cons p ps ih =>
    intro base hu hd
    rcases (uniqueKeysB_cons p ps).mp hu with ⟨hk, hups⟩
    have hbase : hasKey base p.1 = false := hd p (by simp)
    have hstep : assignPairs base (p :: ps) = assignPairs (upsert base p) ps := rfl
    rw [hstep]
    have hup : upsert base p = base ++ [p] := by
      have := upsert_not_has base p hbase
      simpa using this
    rw [hup, ih (base ++ [p]) hups ?_]
    · simp
    · intro q hq
      rw [hasKey_append]
      have h1 : hasKey base q.1 = false := hd q (by simp [hq])
      have h2 : hasKey [p] q.1 = false := by
        have hne : q.1 ≠ p.1 := hasKey_false_forall ps p.1 hk q hq
        simp [hasKey, lookupField, Ne.symm hne]
      rw [h1, h2]
      rfl

theorem assign_nil {α : Type} (fs : List (String × α)) (h : uniqueKeysB fs = true) :
    assignPairs [] fs = fs := by
  have := assign_disjoint fs [] h (by intro q _; rfl)
  simpa using this

theorem pathGet_undefined (ks : List String) : pathGet ks vUndefined = vUndefined := by
  cases ks with
  | nil => rfl
  | cons k ks => simp [pathGet, isNil]

/-- Claim C1: for every call of a reducer built by `createReducer`, a
plain-object state yields the shallow merge of the state with the invoked
handler's result (handler keys winning on collision, third conjunct), and a
state of any other type (array, string, boolean, number) yields exactly the
handler's result. -/
theorem claim_C1 (ds : JValue) (maps : List AMap) (a : JValue) :
    (∀ fs : List (String × JValue),
      createReducer ds maps (vObj fs) a
        = rMerge (vObj fs) (invokedHandler (mergeAllMaps maps) a (vObj fs) a))
    ∧ (∀ s : JValue,
        jsType s = "Array" ∨ jsType s = "String" ∨ jsType s = "Boolean" ∨
          jsType s = "Number" →
        createReducer ds maps s a = invokedHandler (mergeAllMaps maps) a s a)
    ∧ (∀ (fs gs : List (String × JValue)) (k : String),
        uniqueKeysB fs = true → uniqueKeysB gs = true →
        getPropD (rMerge (vObj fs) (vObj gs)) k
          = match lookupField gs k with
            | some v => v
            | none => getPropD (vObj fs) k) := by
  refine ⟨fun fs => rfl, ?_, ?_⟩
  · intro s h
    cases s with
    | vArr xs => rfl
    | vStr s => rfl
    | vBool b => rfl
    | vNum n => rfl
    | vUndefined => simp [jsType] at h
    | vNull => simp [jsType] at h
    | vObj fs => simp [jsType] at h
    | vHdrs hs => simp [jsType] at h
  · intro fs gs k hf hg
    show (lookupField (assignPairs (assignPairs [] fs) gs) k).getD vUndefined = _
    rw [assign_nil fs hf, lookup_assign gs fs k hg]
    cases lookupField gs k with
    | some v => rfl
    | none => rfl

/-- Witness for C1 at concrete inputs: an object state is merged with the
handler result (handler winning on the shared key `b`), a string state is
replaced by the handler result. -/
theorem claim_C1_witness :
    createReducer (vObj []) [[("T", fun _ _ => vObj [("b", vNum 2), ("c", vNum 3)])]]
        (vObj [("a", vNum 1), ("b", vNum 0)]) (vObj [("type", vStr "T")])
      = rMerge (vObj [("a", vNum 1), ("b", vNum 0)]) (vObj [("b", vNum 2), ("c", vNum 3)])
    ∧ createReducer (vObj []) [[("T", fun _ _ => vObj [("b", vNum 2), ("c", vNum 3)])]]
        (vStr "old") (vObj [("type", vStr "T")])
      = vObj [("b", vNum 2), ("c", vNum 3)]
    ∧ getPropD (rMerge (vObj [("a", vNum 1), ("b", vNum 0)]) (vObj [("b", vNum 2), ("c", vNum 3)])) "b"
      = vNum 2 := by
  refine ⟨?_, ?_, ?_⟩
  · exact (claim_C1 (vObj []) [[("T", fun _ _ => vObj [("b", vNum 2), ("c", vNum 3)])]]
      (vObj [("type", vStr "T")])).1 [("a", vNum 1), ("b", vNum 0)]
  · exact ((claim_C1 (vObj []) [[("T", fun _ _ => vObj [("b", vNum 2), ("c", vNum 3)])]]
      (vObj [("type", vStr "T")])).2.1 (vStr "old") (Or.inr (Or.inl rfl))).trans rfl
  · exact ((claim_C1 (vObj []) [[("T", fun _ _ => vObj [("b", vNum 2), ("c", vNum 3)])]]
      (vObj [("type", vStr "T")])).2.2 [("a", vNum 1), ("b", vNum 0)]
      [("b", vNum 2), ("c", vNum 3)] "b" rfl rfl).trans rfl

/-- Claim C4, counterexample: the fallback handler used when no action type
matches is `always({})`; invoked with `(state, action)` it returns the empty
object, not its second argument. -/
theorem claim_C4_counterexample :
    emptyObjectHandler (vStr "s") (vObj [("type", vStr "T"), ("payload", vNum 1)])
      = vObj []
    ∧ vObj [] ≠ vObj [("type", vStr "T"), ("payload", vNum 1)] := by
  refine ⟨rfl, ?_⟩
  intro h
  simp at h

/-- Claim C4 as amended: when the looked-up action type has no handler in
the merged action map, the fallback handler `always({})` returns the empty
object regardless of its arguments, so the reducer returns
`applyHandlerByType(state, {})` — the state itself (merged with nothing) for
object states, and `{}` for every other state type. -/
theorem claim_C4_amended :
    (∀ s a : JValue, emptyObjectHandler s a = vObj [])
    ∧ (∀ (ds : JValue) (maps : List AMap) (s a : JValue),
        lookupField (mergeAllMaps maps) (jsToStr (actionTypeOf a)) = none →
        createReducer ds maps s a
          = applyHandlerByType (match s with | vUndefined => ds | s' => s') (vObj [])) := by
  refine ⟨fun s a => rfl, ?_⟩
  intro ds maps s a h
  simp only [createReducer, invokedHandler, h, emptyObjectHandler]

/-- Witness for the amended C4: with a non-matching action type, a string
state collapses to the empty object produced by the fallback handler. -/
theorem claim_C4_amended_witness :
    createReducer (vObj [("a", vNum 1)]) [[("OTHER", fun s _ => s)]] (vStr "state")
        (vObj [("type", vStr "T")])
      = vObj [] := by
  have h := claim_C4_amended.2 (vObj [("a", vNum 1)]) [[("OTHER", fun s _ => s)]]
    (vStr "state") (vObj [("type", vStr "T")]) rfl
  exact h.trans rfl

/-- Claim C6: a reducer built from a plain-object default state and an empty
action map returns the default state on its very first call with an
undefined incoming state, for every action. -/
theorem claim_C6 (fs : List (String × JValue)) (a : JValue)
    (h : uniqueKeysB fs = true) :
    createReducer (vObj fs) [[]] vUndefined a = vObj fs := by
  have hstep : createReducer (vObj fs) [[]] vUndefined a = vObj (assignPairs [] fs) := rfl
  rw [hstep, assign_nil fs h]

/-- Witness for C6 at a concrete default state and action. -/
theorem claim_C6_witness :
    createReducer (vObj [("a", vNum 1), ("b", vStr "x")]) [[]] vUndefined
        (vObj [("type", vStr "NOPE")])
      = vObj [("a", vNum 1), ("b", vStr "x")] :=
  claim_C6 [("a", vNum 1), ("b", vStr "x")] (vObj [("type", vStr "NOPE")]) rfl

/-- Claim C7: `reduceReducers(f, g)(s, a) = g(f(s, a), a)`, and in general a
leading reducer transforms the state that the remaining reducers then

thread with the same action. -/
theorem claim_C7 :
    (∀ (f g : JValue → JValue → JValue) (s a : JValue),
      reduceReducers [f, g] s a = g (f s a) a)
    ∧ (∀ (f : JValue → JValue → JValue) (rs : List (JValue → JValue → JValue))
        (s a : JValue),
      reduceReducers (f :: rs) s a = reduceReducers rs (f s a) a) :=
  ⟨fun _ _ _ _ => rfl, fun _ _ _ _ => rfl⟩

/-- Claim C9: for every handler function, `fetchCallback` applied to
`undefined`, `null`, `{}` or `[]` never throws; nil inputs degrade to the
empty object and empty containers degrade to `undefined`, flowing into the
handler together with an empty-object meta. -/
theorem claim_C9 (f : JValue → JValue → JValue) :
    fetchCallbackFn f vUndefined = .ok (f (vObj []) (vObj []))
    ∧ fetchCallbackFn f vNull = .ok (f (vObj []) (vObj []))
    ∧ fetchCallbackFn f (vObj []) = .ok (f vUndefined (vObj []))
    ∧ fetchCallbackFn f (vArr []) = .ok (f vUndefined (vObj [])) :=
  ⟨rfl, rfl, rfl, rfl⟩

/-- Claim C3, counterexample: in the shipped generation both selector
shapes are built over the nil-guarded `lensPath`, so the single-key
selector applied to `undefined` evaluates to `undefined` instead of
throwing a type error — symmetrically with the array-path selector. -/
theorem claim_C3_counterexample :
    createSelector (vStr "k") vUndefined = vUndefined
    ∧ createSelector (vArr [vStr "a", vStr "b"]) vUndefined = vUndefined :=
  ⟨rfl, rfl⟩

/-- Claim C3 as amended: both the single-key and the array-path selector
return `undefined` without throwing when applied to `undefined`, and return
`undefined` on a defined object lacking the (first) key. -/
theorem claim_C3_amended :
    (∀ k : String, createSelector (vStr k) vUndefined = vUndefined)
    ∧ (∀ ps : List JValue, createSelector (vArr ps) vUndefined = vUndefined)
    ∧ (∀ (k : String) (fs : List (String × JValue)),
        lookupField fs k = none → createSelector (vStr k) (vObj fs) = vUndefined)
    ∧ (∀ (k : String) (ks : List JValue) (fs : List (String × JValue)),
        lookupField fs k = none →
        createSelector (vArr (vStr k :: ks)) (vObj fs) = vUndefined) := by
  refine ⟨fun k => rfl, ?_, ?_, ?_⟩
  · intro ps
    exact pathGet_undefined (ps.map jsToStr)
  · intro k fs h
    show pathGet [k] (vObj fs) = vUndefined
    simp [pathGet, isNil, getPropD, h]
  · intro k ks fs h
    show pathGet (k :: ks.map jsToStr) (vObj fs) = vUndefined
    simp only [pathGet, isNil]
    rw [if_neg (by simp), show getPropD (vObj fs) k = vUndefined by simp [getPropD, h]]
    exact pathGet_undefined (ks.map jsToStr)

/-- Witness for the amended C3 at concrete objects lacking the keys. -/
theorem claim_C3_amended_witness :
    createSelector (vStr "k") (vObj [("j", vNum 1)]) = vUndefined
    ∧ createSelector (vArr [vStr "a", vStr "b"]) (vObj [("z", vNum 1)]) = vUndefined :=
  ⟨claim_C3_amended.2.2.1 "k" [("j", vNum 1)] rfl,
   claim_C3_amended.2.2.2 "a" [vStr "b"] [("z", vNum 1)] rfl⟩

/-- Claim C2, counterexample: an empty but non-nil response does not yield
`{}`; the nil-or-empty guard of `statusFilter` degenerates to a nil check
(ramda 0.21.0 `or` of two functions), so the empty object matches no branch
and `statusFilter` returns `undefined`. -/
theorem claim_C2_counterexample :
    statusFilterE (vObj []) = .ok vUndefined
    ∧ (Except.ok vUndefined : Except String JValue) ≠ .ok (vObj []) := by
  refine ⟨rfl, ?_⟩
  intro h
  simp at h

/-- Claim C2 as amended: a nil response yields `{}`; an empty but non-nil
response (`{}`, `[]`, `''`) matches no branch and yields `undefined`;
otherwise a response with status 401 yields `{ redirect_to:
headers.get('location') }`; otherwise a response whose status lies in
`[200, 300)` yields its `value` field JSON-decoded when that field is a
string (the empty string decoding to `{}`) and unchanged when it is already
an object. -/
theorem claim_C2_amended :
    (statusFilterE vNull = .ok (vObj []) ∧ statusFilterE vUndefined = .ok (vObj []))
    ∧ (statusFilterE (vObj []) = .ok vUndefined
       ∧ statusFilterE (vArr []) = .ok vUndefined
       ∧ statusFilterE (vStr "") = .ok vUndefined)
    ∧ (∀ (fs hs : List (String × JValue)),
        lookupField fs "status" = some (vNum 401) →
        lookupField fs "headers" = some (vHdrs hs) →
        statusFilterE (vObj fs) = .ok (vObj [("redirect_to", hGet hs "location")]))
    ∧ (∀ (fs : List (String × JValue)) (n : Int) (s : String),
        lookupField fs "status" = some (vNum n) → 200 ≤ n → n < 300 →
        lookupField fs "value" = some (vStr s) →
        statusFilterE (vObj fs) = parse (vStr s))
    ∧ parse (vStr "") = .ok (vObj [])
    ∧ (∀ (fs gs : List (String × JValue)) (n : Int),
        lookupField fs "status" = some (vNum n) → 200 ≤ n → n < 300 →
        lookupField fs "value" = some (vObj gs) →
        statusFilterE (vObj fs) = .ok (vObj gs)) := by
  refine ⟨⟨rfl, rfl⟩, ⟨rfl, rfl, rfl⟩, ?_, ?_, rfl, ?_⟩
  · intro fs hs h1 h2
    simp [statusFilterE, isNil, propEqE, getPropE, getPropD, h1, jsEquals,
      getRedirectE, getHeadersE, h2]
  · intro fs n s h1 hlo hhi h2
    have hne : ¬ ((401 : Int) == n) = true := by
      simp only [beq_iff_eq]
      omega
    simp [statusFilterE, isNil, propEqE, getPropE, getPropD, h1, jsEquals,
      Bool.eq_false_iff.mpr hne, statusWithinRangeE, statusCodeLtE, jsLt, toNumOpt,
      hhi, encodeResponseE, h2, parseIfString, jsType]
  · intro fs gs n h1 hlo hhi h2
    have hne : ¬ ((401 : Int) == n) = true := by
      simp only [beq_iff_eq]
      omega
    simp [statusFilterE, isNil, propEqE, getPropE, getPropD, h1, jsEquals,
      Bool.eq_false_iff.mpr hne, statusWithinRangeE, statusCodeLtE, jsLt, toNumOpt,
      hhi, encodeResponseE, h2, parseIfString, jsType]

/-- Witness for the amended C2: a 401 response with a location header
redirects; a 200 response with a JSON-string body decodes to the whole
envelope; a 204 response with an empty-string body decodes to `{}`; a 250
response with a pre-decoded object body passes it through. -/
theorem claim_C2_amended_witness :
    statusFilterE (vObj [("status", vNum 401),
        ("headers", vHdrs [("location", vStr "http://x/login")])])
      = .ok (vObj [("redirect_to", vStr "http://x/login")])
    ∧ statusFilterE (vObj [("status", vNum 200), ("value", vStr "\x7b\"data\":\"X\"\x7d")])
      = .ok (vObj [("data", vStr "X")])
    ∧ statusFilterE (vObj [("status", vNum 204), ("value", vStr "")])
      = .ok (vObj [])
    ∧ statusFilterE (vObj [("status", vNum 250), ("value", vObj [("data", vStr "Y")])])
      = .ok (vObj [("data", vStr "Y")]) := by
  refine ⟨?_, ?_, ?_, ?_⟩
  · exact (claim_C2_amended.2.2.1 [("status", vNum 401),
      ("headers", vHdrs [("location", vStr "http://x/login")])]
      [("location", vStr "http://x/login")] rfl rfl).trans rfl
  · exact (claim_C2_amended.2.2.2.1 [("status", vNum 200),
      ("value", vStr "\x7b\"data\":\"X\"\x7d")] 200 "\x7b\"data\":\"X\"\x7d" rfl (by decide)
      (by decide) rfl).trans rfl
  · exact (claim_C2_amended.2.2.2.1 [("status", vNum 204), ("value", vStr "")]
      204 "" rfl (by decide) (by decide) rfl).trans rfl
  · exact claim_C2_amended.2.2.2.2.2 [("status", vNum 250),
      ("value", vObj [("data", vStr "Y")])] [("data", vStr "Y")] 250 rfl
      (by decide) (by decide) rfl

/-- Claim C10, counterexample: a response whose status is neither 401 nor in
`[200, 300)` can still match the success branch, because the built range
predicate degenerates to `status < 300` (ramda 0.21.0 `and` of two
functions); at status 100 with a pre-decoded body, `statusFilter` returns
the body rather than `undefined`, and the handler receives its `data` field
rather than `undefined`. -/
theorem claim_C10_counterexample :
    statusFilterE (vObj [("status", vNum 100), ("value", vObj [("data", vStr "X")])])
      = .ok (vObj [("data", vStr "X")])
    ∧ (Except.ok (vObj [("data", vStr "X")]) : Except String JValue) ≠ .ok vUndefined
    ∧ fetchCallbackFn (fun d _ => d)
        (vObj [("status", vNum 100), ("value", vObj [("data", vStr "X")])])
      = .ok (vStr "X") := by
  refine ⟨rfl, ?_, rfl⟩
  intro h
  simp at h

/-- Claim C10 as amended: for a response object whose status is a number
that is neither 401 nor below 300, `statusFilter` matches none of its
branches and returns `undefined`, and `fetchCallback` then invokes the
handler with `(undefined, {})` rather than throwing. -/
theorem claim_C10_amended (fs : List (String × JValue)) (n : Int)
    (f : JValue → JValue → JValue)
    (hstat : lookupField fs "status" = some (vNum n))
    (h401 : n ≠ 401) (hge : ¬ n < 300) :
    statusFilterE (vObj fs) = .ok vUndefined
    ∧ fetchCallbackFn f (vObj fs) = .ok (f vUndefined (vObj [])) := by
  have hne : ¬ ((401 : Int) == n) = true := by
    simp only [beq_iff_eq]
    omega
  have hfilter : statusFilterE (vObj fs) = .ok vUndefined := by
    simp [statusFilterE, isNil, propEqE, getPropE, getPropD, hstat, jsEquals,
      Bool.eq_false_iff.mpr hne, statusWithinRangeE, statusCodeLtE, jsLt, toNumOpt,
      hge]
  refine ⟨hfilter, ?_⟩
  simp [fetchCallbackFn, hfilter, safeData, isResponseObj, jsType, safeMeta,
    propOrJ, isNil]

/-- Witness for the amended C10 at a concrete 500 response. -/
theorem claim_C10_amended_witness :
    statusFilterE (vObj [("status", vNum 500), ("value", vStr "oops")])
      = .ok vUndefined
    ∧ fetchCallbackFn (fun d _ => vArr [d])
        (vObj [("status", vNum 500), ("value", vStr "oops")])
      = .ok (vArr [vUndefined]) :=
  claim_C10_amended [("status", vNum 500), ("value", vStr "oops")] 500
    (fun d _ => vArr [d]) rfl (by decide) (by decide)

/-- Claim C8: the action creator built by `createAction` yields
`{ type, payload: {}, meta: {} }` when called with no arguments, coerces a
`null` payload or meta to `{}`, and passes any other non-nullish payload or
meta value through verbatim (JS numbers are modelled as integers here, so
the `NaN` special case of ramda's `defaultTo` is outside the model). -/
theorem claim_C8 (t : String) :
    createAction t vUndefined vUndefined
      = vObj [("type", vStr t), ("payload", vObj []), ("meta", vObj [])]
    ∧ (∀ m : JValue, getPropD (createAction t vNull m) "payload" = vObj [])
    ∧ (∀ p : JValue, getPropD (createAction t p vNull) "meta" = vObj [])
    ∧ (∀ p m : JValue, p ≠ vNull → p ≠ vUndefined →
        getPropD (createAction t p m) "payload" = p)
    ∧ (∀ p m : JValue, m ≠ vNull → m ≠ vUndefined →
        getPropD (createAction t p m) "meta" = m) := by
  refine ⟨rfl, fun m => rfl, fun p => rfl, ?_, ?_⟩
  · intro p m hp hu
    cases p <;> simp_all [createAction, returnActionResult, orEmptyObject, isNil,
      getPropD, lookupField]
  · intro p m hm hu
    cases m <;> simp_all [createAction, returnActionResult, orEmptyObject, isNil,
      getPropD, lookupField]

/-- Witness for C8: a number payload and a string meta pass through
verbatim; a null meta is coerced to the empty object. -/
theorem claim_C8_witness :
    getPropD (createAction "T" (vNum 42) (vStr "m")) "payload" = vNum 42
    ∧ getPropD (createAction "T" (vNum 42) (vStr "m")) "meta" = vStr "m"
    ∧ getPropD (createAction "T" (vObj [("k", vStr "v")]) vNull) "meta" = vObj [] := by
  refine ⟨?_, ?_, ?_⟩
  · exact (claim_C8 "T").2.2.2.1 (vNum 42) (vStr "m")
      (fun h => JValue.noConfusion h) (fun h => JValue.noConfusion h)
  · exact (claim_C8 "T").2.2.2.2 (vNum 42) (vStr "m")
      (fun h => JValue.noConfusion h) (fun h => JValue.noConfusion h)
  · exact (claim_C8 "T").2.2.1 (vObj [("k", vStr "v")])

/-- Claim C5, counterexample: the wrapper built by
`namedApiFetchWrapper('widget')` prefixes `/api/widget-api` (dash suffix,
not `.api`) and its headers also carry the `cx-app` and `cx-app-version`
globals, so the action differs from the claimed object (shown here at
concrete values of the ambient globals). -/
theorem claim_C5_counterexample :
    namedApiFetchWrapperDefault "testApp" "1.0.0" "widget" "/x"
        (vObj [("method", vStr "POST")])
      ≠ vObj [("type", vStr "EFFECT_FETCH"),
              ("payload", vObj [
                ("url", vStr "/api/widget.api/x"),
                ("params", vObj [
                  ("method", vStr "POST"),
                  ("headers", vObj [
                    ("Accept", vStr "application/x.widget-api.1+json"),
                    ("Content-Type", vStr "application/json")])])])] := by
  intro h
  rw [show namedApiFetchWrapperDefault "testApp" "1.0.0" "widget" "/x"
        (vObj [("method", vStr "POST")])
      = vObj [("type", vStr "EFFECT_FETCH"),
              ("payload", vObj [
                ("url", vStr "/api/widget-api/x"),
                ("params", vObj [
                  ("method", vStr "POST"),
                  ("headers", vObj [
                    ("Accept", vStr "application/x.widget-api.1+json"),
                    ("Content-Type", vStr "application/json"),
                    ("cx-app", vStr "testApp"),
                    ("cx-app-version", vStr "1.0.0")])])])] from rfl] at h
  simp at h

/-- Claim C5 as amended: `namedApiFetchWrapper('widget')('/x', { method:
'POST' })` returns exactly the `EFFECT_FETCH` action with url
`/api/widget-api/x` and params `{ method: 'POST', headers: { Accept,
Content-Type, cx-app: APP_NAME, cx-app-version: APP_VERSION } }`. -/
theorem claim_C5_amended (appName appVersion : String) :
    namedApiFetchWrapperDefault appName appVersion "widget" "/x"
        (vObj [("method", vStr "POST")])
      = vObj [("type", vStr "EFFECT_FETCH"),
              ("payload", vObj [
                ("url", vStr "/api/widget-api/x"),
                ("params", vObj [
                  ("method", vStr "POST"),
                  ("headers", vObj [
                    ("Accept", vStr "application/x.widget-api.1+json"),
                    ("Content-Type", vStr "application/json"),
                    ("cx-app", vStr appName),
                    ("cx-app-version", vStr appVersion)])])])] := rfl

end CxReduxUtils
